import Mathlib

/-!
Shallow embedding of the cross-join operator of the cudf join subsystem
(src/cpp/src/join/cross_join.cu) together with the contracts of the
column-level primitives it composes from (row repetition, row tiling,
empty-like materialization), and proofs of the specified properties.

Columns are modelled as an element-type tag plus the list of element
values; tables as ordered lists of columns.  The implementations of
`cudf::detail::repeat`, `cudf::tile` and `cudf::empty_like` are not part
of the sources at hand, so they are modelled from their contracts as the
specification states them; `cross_join` itself is translated line by line
from the source file.
-/

deriving instance DecidableEq for Except

namespace CrossJoin

/-- A device column: an element-type tag together with the list of its
element values, one entry per row. -/
structure Column where
  dtype : Nat
  data : List Nat
deriving DecidableEq, Repr

/-- A table is an ordered list of columns (the order is the schema order). -/
abbrev Table := List Column

/-- Number of columns of a table view, as in `table_view::num_columns()`. -/
def num_columns (t : Table) : Nat := t.length

/-- Number of rows of a table view, as in `table_view::num_rows()`: zero for
a column-less view, otherwise the shared row count of its columns, read off
the first column. -/
def num_rows : Table → Nat
  | [] => 0
  | c :: _ => c.data.length

/-- Well-formedness of a table: every column holds exactly `r` rows. -/
def WF (t : Table) (r : Nat) : Prop := ∀ c ∈ t, c.data.length = r

instance (t : Table) (r : Nat) : Decidable (WF t r) :=
  inferInstanceAs (Decidable (∀ c ∈ t, c.data.length = r))

/-- Row `i` of a table: the `i`-th element of each column, in schema order
(out-of-range reads default to 0; the theorems only use in-range indices). -/
def row (t : Table) (i : Nat) : List Nat := t.map (fun c => c.data.getD i 0)

/-- Schema of a table: the list of its columns' element-type tags. -/
def dtypes (t : Table) : List Nat := t.map Column.dtype

/-- Modelled from the spec: `cudf::detail::repeat` (the Row-Repetition
primitive, spec 4.2) is declared in a header outside the sources at hand.
Contract: the output has `rows * factor` rows and output row `k` equals
input row `k / factor`; each column keeps its element type. -/
def repeatTable (t : Table) (factor : Nat) : Table :=
  t.map (fun c =>
    ⟨c.dtype, (List.range (c.data.length * factor)).map (fun k => c.data.getD (k / factor) 0)⟩)

/-- Modelled from the spec: `cudf::tile` (the Row-Tiling primitive, spec 4.3)
is declared in a header outside the sources at hand.  Contract: the output is
`count` full copies of the input table's rows concatenated in original order;
each column keeps its element type. -/
def tile (t : Table) (count : Nat) : Table :=
  t.map (fun c => ⟨c.dtype, (List.replicate count c.data).flatten⟩)

/-- Modelled from the spec: `cudf::empty_like` (the Empty-Like primitive,
spec 4.4) is declared in a header outside the sources at hand.  Contract: a
zero-row table with one column per input column, of the same element type. -/
def empty_like (t : Table) : Table :=
  t.map (fun c => ⟨c.dtype, []⟩)

/-- Shallow embedding of `cudf::detail::cross_join`
(src/cpp/src/join/cross_join.cu, lines 48-82), at the level of table values:
the two `CUDF_EXPECTS` zero-column checks, the zero-row path that stitches
the two empty-like column lists, and the general path that stitches the
repeated left columns with the tiled right columns. -/
def cross_join (left right : Table) : Except String Table :=
  if num_columns left = 0 then .error "Left table is empty"
  else if num_columns right = 0 then .error "Right table is empty"
  else if num_rows left = 0 ∨ num_rows right = 0 then
    .ok (empty_like left ++ empty_like right)
  else
    .ok (repeatTable left (num_rows right) ++ tile right (num_rows left))

example :
    cross_join [Column.mk 0 [1, 2]] [Column.mk 0 [10, 20, 30]] =
      .ok [Column.mk 0 [1, 1, 1, 2, 2, 2], Column.mk 0 [10, 20, 30, 10, 20, 30]] := by
  decide

/-- A primitive invocation as issued by the body of `detail::cross_join`,
recording which memory-resource and which stream argument the call site
passes to it (`none` when the call site passes no such argument). -/
inductive Event where
  | repeatCall (mr : Option Nat) (stream : Option Nat)
  | tileCall (mr : Option Nat) (stream : Option Nat)
  | emptyLikeCall (mr : Option Nat) (stream : Option Nat)
  | makeTableCall (mr : Option Nat) (stream : Option Nat)
deriving DecidableEq, Repr

/-- The stream argument an invocation was issued with, if any. -/
def Event.streamArg : Event → Option Nat
  | .repeatCall _ s => s
  | .tileCall _ s => s
  | .emptyLikeCall _ s => s
  | .makeTableCall _ s => s

/-- The memory-resource argument an invocation was issued with, if any. -/
def Event.mrArg : Event → Option Nat
  | .repeatCall m _ => m
  | .tileCall m _ => m
  | .emptyLikeCall m _ => m
  | .makeTableCall m _ => m

/-- Whether the invocation is one of the column-producing primitives
(repetition, tiling or empty-like; the final table constructor only takes
ownership of already-built columns). -/
def Event.producesColumns : Event → Bool
  | .repeatCall _ _ => true
  | .tileCall _ _ => true
  | .emptyLikeCall _ _ => true
  | .makeTableCall _ _ => false

/-- Whether the invocation is of the repetition or the tiling primitive. -/
def Event.isRepeatOrTile : Event → Bool
  | .repeatCall _ _ => true
  | .tileCall _ _ => true
  | _ => false

/-- Shallow embedding of `cudf::detail::cross_join` together with the trace
of primitive invocations its body issues, in program order, where `mr` and
`stream` are the caller's arguments.  Reading the call sites off the source:
`detail::repeat(left, num_repeats, mr, stream)` receives both `mr` and
`stream` (line 69); `cudf::tile(right, left.num_rows(), mr)` receives `mr`
but no stream argument (line 72); `empty_like(left)` and `empty_like(right)`
receive neither (lines 59-60); the final `table` constructor receives
neither (lines 64 and 81).  The zero-column failure path returns before any
primitive is invoked (lines 54-55). -/
def cross_join_run (left right : Table) (mr stream : Nat) :
    Except String Table × List Event :=
  if num_columns left = 0 then (.error "Left table is empty", [])
  else if num_columns right = 0 then (.error "Right table is empty", [])
  else if num_rows left = 0 ∨ num_rows right = 0 then
    (.ok (empty_like left ++ empty_like right),
      [.emptyLikeCall none none, .emptyLikeCall none none, .makeTableCall none none])
  else
    (.ok (repeatTable left (num_rows right) ++ tile right (num_rows left)),
      [.repeatCall (some mr) (some stream), .tileCall (some mr) none,
        .makeTableCall none none])

/-- Shallow embedding of `detail::cross_join` over fallible primitives:
`rep` and `tl` stand for `detail::repeat` and `cudf::tile`, either of which
may fail (allocation or launch failure).  The body installs no handler, so,
as in the C++, a failure unwinds out of the call unchanged. -/
def cross_join_exc (rep : Table → Nat → Except String Table)
    (tl : Table → Nat → Except String Table)
    (left right : Table) : Except String Table :=
  if num_columns left = 0 then .error "Left table is empty"
  else if num_columns right = 0 then .error "Right table is empty"
  else if num_rows left = 0 ∨ num_rows right = 0 then
    .ok (empty_like left ++ empty_like right)
  else
    match rep left (num_rows right) with
    | .error e => .error e
    | .ok left_repeated =>
      match tl right (num_rows left) with
      | .error e => .error e
      | .ok right_tiled => .ok (left_repeated ++ right_tiled)

/-- A device heap holding tables at indices.  `cross_join` receives its
inputs as `table_view const&` (read-only views onto heap-resident tables,
lines 48-50) and its public overload (lines 85-91) returns a freshly
constructed table, modelled here as a step that appends the new table to
the heap and leaves every existing entry in place. -/
def cross_join_heap (mem : List Table) (i j : Nat) :
    Except String (List Table) :=
  match mem[i]?, mem[j]? with
  | some left, some right =>
    match cross_join left right with
    | .ok t => .ok (mem ++ [t])
    | .error e => .error e
  | _, _ => .error "invalid table handle"

lemma getD_range_map (f : Nat → Nat) (N i d : Nat) (h : i < N) :
    ((List.range N).map f).getD i d = f i := by
  rw [List.getD_eq_getElem?_getD, List.getElem?_map, List.getElem?_range h]
  rfl

lemma getD_flatten_replicate (l : List Nat) (d : Nat) :
    ∀ m i, i < m * l.length →
      ((List.replicate m l).flatten).getD i d = l.getD (i % l.length) d := by
  intro m
  induction m with
  | zero => intro i h; simp at h
  | succ m ih =>
    intro i h
    rw [List.replicate_succ, List.flatten_cons]
    rcases Nat.lt_or_ge i l.length with hi | hi
    · rw [List.getD_append _ _ _ _ hi, Nat.mod_eq_of_lt hi]
    · rw [List.getD_append_right _ _ _ _ hi]
      have hmul : (m + 1) * l.length = m * l.length + l.length := Nat.succ_mul m l.length
      have h' : i - l.length < m * l.length := by omega
      rw [ih (i - l.length) h', ← Nat.mod_eq_sub_mod hi]

lemma length_flatten_replicate (m : Nat) (l : List Nat) :
    ((List.replicate m l).flatten).length = m * l.length := by
  induction m with
  | zero => simp
  | succ m ih =>
    rw [List.replicate_succ, List.flatten_cons, List.length_append, ih, Nat.succ_mul]
    omega

lemma num_rows_eq {t : Table} {r : Nat} (h : t ≠ []) (hw : WF t r) :
    num_rows t = r := by
  cases t with
  | nil => exact absurd rfl h
  | cons c cs => exact hw c (List.mem_cons_self c cs)

lemma num_rows_append {A B : Table} (h : A ≠ []) :
    num_rows (A ++ B) = num_rows A := by
  cases A with
  | nil => exact absurd rfl h
  | cons c cs => rfl

lemma empty_like_ne_nil {t : Table} (h : t ≠ []) : empty_like t ≠ [] := by
  simpa [empty_like] using h

lemma repeatTable_ne_nil {t : Table} (h : t ≠ []) (f : Nat) :
    repeatTable t f ≠ [] := by
  simpa [repeatTable] using h

lemma dtypes_repeatTable (t : Table) (f : Nat) :
    dtypes (repeatTable t f) = dtypes t := by
  simp [dtypes, repeatTable, List.map_map, Function.comp]

lemma dtypes_tile (t : Table) (m : Nat) : dtypes (tile t m) = dtypes t := by
  simp [dtypes, tile, List.map_map, Function.comp]

lemma dtypes_empty_like (t : Table) : dtypes (empty_like t) = dtypes t := by
  simp [dtypes, empty_like, List.map_map, Function.comp]

lemma WF_repeatTable {t : Table} {r : Nat} (hw : WF t r) (f : Nat) :
    WF (repeatTable t f) (r * f) := by
  intro c hc
  obtain ⟨c0, hc0, rfl⟩ := List.mem_map.mp hc
  simp [hw c0 hc0]

lemma WF_tile {t : Table} {r : Nat} (hw : WF t r) (m : Nat) :
    WF (tile t m) (m * r) := by
  intro c hc
  obtain ⟨c0, hc0, rfl⟩ := List.mem_map.mp hc
  show ((List.replicate m c0.data).flatten).length = m * r
  rw [length_flatten_replicate, hw c0 hc0]

lemma WF_empty_like (t : Table) : WF (empty_like t) 0 := by
  intro c hc
  obtain ⟨c0, _, rfl⟩ := List.mem_map.mp hc
  rfl

lemma WF_append {A B : Table} {r : Nat} (hA : WF A r) (hB : WF B r) :
    WF (A ++ B) r := by
  intro c hc
  rcases List.mem_append.mp hc with h | h
  · exact hA c h
  · exact hB c h

lemma row_append (A B : Table) (i : Nat) :
    row (A ++ B) i = row A i ++ row B i := by
  simp [row]

lemma num_rows_repeatTable {t : Table} {r : Nat} (h : t ≠ []) (hw : WF t r)
    (f : Nat) : num_rows (repeatTable t f) = r * f := by
  cases t with
  | nil => exact absurd rfl h
  | cons c cs =>
    simp [repeatTable, num_rows, hw c (List.mem_cons_self c cs)]

lemma num_rows_empty_like {t : Table} (h : t ≠ []) :
    num_rows (empty_like t) = 0 := by
  cases t with
  | nil => exact absurd rfl h
  | cons c cs => rfl

lemma cross_join_general {L R : Table} {m n : Nat}
    (hL : L ≠ []) (hR : R ≠ []) (hwL : WF L m) (hwR : WF R n)
    (hm : 0 < m) (hn : 0 < n) :
    cross_join L R = .ok (repeatTable L n ++ tile R m) := by
  have h1 : ¬ num_columns L = 0 := by
    simpa [num_columns, List.length_eq_zero] using hL
  have h2 : ¬ num_columns R = 0 := by
    simpa [num_columns, List.length_eq_zero] using hR
  have h3 : ¬ (num_rows L = 0 ∨ num_rows R = 0) := by
    rw [num_rows_eq hL hwL, num_rows_eq hR hwR]
    omega
  rw [cross_join, if_neg h1, if_neg h2, if_neg h3,
    num_rows_eq hL hwL, num_rows_eq hR hwR]

lemma cross_join_zero {L R : Table}
    (hL : L ≠ []) (hR : R ≠ []) (h0 : num_rows L = 0 ∨ num_rows R = 0) :
    cross_join L R = .ok (empty_like L ++ empty_like R) := by
  have h1 : ¬ num_columns L = 0 := by
    simpa [num_columns, List.length_eq_zero] using hL
  have h2 : ¬ num_columns R = 0 := by
    simpa [num_columns, List.length_eq_zero] using hR
  rw [cross_join, if_neg h1, if_neg h2, if_pos h0]

lemma dtypes_append (A B : Table) :
    dtypes (A ++ B) = dtypes A ++ dtypes B := by
  simp [dtypes]

lemma cross_join_shape {L R : Table} {m n : Nat}
    (hL : L ≠ []) (hR : R ≠ []) (hwL : WF L m) (hwR : WF R n) :
    ∃ T, cross_join L R = .ok T ∧
      num_columns T = num_columns L + num_columns R ∧
      dtypes T = dtypes L ++ dtypes R ∧
      WF T (m * n) ∧ num_rows T = m * n ∧ T ≠ [] := by
  by_cases h0 : m = 0 ∨ n = 0
  · have hmn : m * n = 0 := by rcases h0 with h | h <;> simp [h]
    have h0' : num_rows L = 0 ∨ num_rows R = 0 := by
      rw [num_rows_eq hL hwL, num_rows_eq hR hwR]; exact h0
    refine ⟨empty_like L ++ empty_like R, cross_join_zero hL hR h0',
      ?_, ?_, ?_, ?_, ?_⟩
    · simp [num_columns, empty_like]
    · rw [dtypes_append, dtypes_empty_like, dtypes_empty_like]
    · rw [hmn]; exact WF_append (WF_empty_like L) (WF_empty_like R)
    · rw [num_rows_append (empty_like_ne_nil hL), num_rows_empty_like hL, hmn]
    · intro hc
      exact empty_like_ne_nil hL (List.append_eq_nil.mp hc).1
  · push_neg at h0
    have hm : 0 < m := Nat.pos_of_ne_zero h0.1
    have hn : 0 < n := Nat.pos_of_ne_zero h0.2
    refine ⟨repeatTable L n ++ tile R m,
      cross_join_general hL hR hwL hwR hm hn, ?_, ?_, ?_, ?_, ?_⟩
    · simp [num_columns, repeatTable, tile]
    · rw [dtypes_append, dtypes_repeatTable, dtypes_tile]
    · exact WF_append (WF_repeatTable hwL n) (WF_tile hwR m)
    · rw [num_rows_append (repeatTable_ne_nil hL n),
        num_rows_repeatTable hL hwL n]
    · intro hc
      exact repeatTable_ne_nil hL n (List.append_eq_nil.mp hc).1

lemma cross_join_row_law {L R : Table} {m n : Nat}
    (hwL : WF L m) (hwR : WF R n) {i : Nat} (hi : i < m * n) :
    row (repeatTable L n ++ tile R m) i = row L (i / n) ++ row R (i % n) := by
  rw [row_append]
  congr 1
  · rw [row, row, repeatTable, List.map_map]
    apply List.map_congr_left
    intro c hc
    have hlen : c.data.length = m := hwL c hc
    show ((List.range (c.data.length * n)).map (fun k => c.data.getD (k / n) 0)).getD i 0
        = c.data.getD (i / n) 0
    rw [getD_range_map _ _ _ _ (by rw [hlen]; exact hi)]
  · rw [row, row, tile, List.map_map]
    apply List.map_congr_left
    intro c hc
    have hlen : c.data.length = n := hwR c hc
    show ((List.replicate m c.data).flatten).getD i 0 = c.data.getD (i % n) 0
    rw [getD_flatten_replicate c.data 0 m i (by rw [hlen]; exact hi), hlen]

/-- C1: for all tables L with m rows and R with n rows, both non-empty (at
least one column and at least one row each), every row i in [0, m*n) of
cross_join(L, R) equals row i / n of L concatenated with row i % n of R
(right rows cycling fastest). -/
theorem crossJoin_row_ordering (L R : Table) (m n i : Nat)
    (hL : L ≠ []) (hR : R ≠ []) (hwL : WF L m) (hwR : WF R n)
    (hm : 0 < m) (hn : 0 < n) (hi : i < m * n) :
    ∃ T, cross_join L R = .ok T ∧ row T i = row L (i / n) ++ row R (i % n) :=
  ⟨repeatTable L n ++ tile R m, cross_join_general hL hR hwL hwR hm hn,
    cross_join_row_law hwL hwR hi⟩

/-- Witness for C1 at the spec's own example: L = [[1],[2]], R =
[[10],[20],[30]], result row 4 is L.row 1 concatenated with R.row 1. -/
theorem crossJoin_row_ordering_witness :
    ∃ T, cross_join [Column.mk 0 [1, 2]] [Column.mk 0 [10, 20, 30]] = .ok T ∧
      row T 4 = row [Column.mk 0 [1, 2]] (4 / 3) ++
        row [Column.mk 0 [10, 20, 30]] (4 % 3) :=
  crossJoin_row_ordering [Column.mk 0 [1, 2]] [Column.mk 0 [10, 20, 30]] 2 3 4
    (by decide) (by decide) (by decide) (by decide) (by decide) (by decide)
    (by decide)

/-- C2: for all non-empty tables L (m rows, p columns) and R (n rows, q
columns), cross_join(L, R) has exactly m*n rows and p+q columns, the first
p columns typed as L's columns in order and the last q as R's. -/
theorem crossJoin_shape_types (L R : Table) (m n : Nat)
    (hL : L ≠ []) (hR : R ≠ []) (hwL : WF L m) (hwR : WF R n)
    (_hm : 0 < m) (_hn : 0 < n) :
    ∃ T, cross_join L R = .ok T ∧ num_rows T = m * n ∧
      num_columns T = num_columns L + num_columns R ∧
      dtypes T = dtypes L ++ dtypes R := by
  obtain ⟨T, h1, h2, h3, _, h5, _⟩ := cross_join_shape hL hR hwL hwR
  exact ⟨T, h1, h5, h2, h3⟩

/-- Witness for C2 on a 2-row, 1-column left table and a 3-row, 1-column
right table. -/
theorem crossJoin_shape_types_witness :
    ∃ T, cross_join [Column.mk 1 [1, 2]] [Column.mk 2 [10, 20, 30]] = .ok T ∧
      num_rows T = 2 * 3 ∧
      num_columns T = num_columns [Column.mk 1 [1, 2]] +
        num_columns [Column.mk 2 [10, 20, 30]] ∧
      dtypes T = dtypes [Column.mk 1 [1, 2]] ++
        dtypes [Column.mk 2 [10, 20, 30]] :=
  crossJoin_shape_types [Column.mk 1 [1, 2]] [Column.mk 2 [10, 20, 30]] 2 3
    (by decide) (by decide) (by decide) (by decide) (by decide) (by decide)

/-- C3: a zero-column left or right table (regardless of row counts) makes
cross_join fail with one of the two invalid-argument errors, and the
invocation trace is empty: no primitive is invoked before the failure, so
no device work is issued and no allocation is performed. -/
theorem crossJoin_zero_columns_error (L R : Table) (mr s : Nat)
    (h : num_columns L = 0 ∨ num_columns R = 0) :
    ∃ e, cross_join_run L R mr s = (.error e, []) ∧
      (e = "Left table is empty" ∨ e = "Right table is empty") := by
  by_cases hLz : num_columns L = 0
  · exact ⟨"Left table is empty",
      by rw [cross_join_run, if_pos hLz], Or.inl rfl⟩
  · have hRz : num_columns R = 0 := h.resolve_left hLz
    exact ⟨"Right table is empty",
      by rw [cross_join_run, if_neg hLz, if_pos hRz], Or.inr rfl⟩

/-- Witness for C3 on a column-less left table with a non-empty right
table. -/
theorem crossJoin_zero_columns_error_witness :
    ∃ e, cross_join_run [] [Column.mk 0 [1]] 0 0 = (.error e, []) ∧
      (e = "Left table is empty" ∨ e = "Right table is empty") :=
  crossJoin_zero_columns_error [] [Column.mk 0 [1]] 0 0 (by decide)

/-- C4: when both tables have at least one column and either has zero rows,
cross_join returns a zero-row table with the full combined column list and
the correct per-column element types, via the empty-like path, and the
invocation trace contains no repetition or tiling call (so no division or
modulus by a zero row count occurs). -/
theorem crossJoin_zero_rows_degenerate (L R : Table) (mr s : Nat)
    (hL : L ≠ []) (hR : R ≠ [])
    (h0 : num_rows L = 0 ∨ num_rows R = 0) :
    ∃ T, (cross_join_run L R mr s).1 = .ok T ∧ num_rows T = 0 ∧
      num_columns T = num_columns L + num_columns R ∧
      dtypes T = dtypes L ++ dtypes R ∧
      ∀ e ∈ (cross_join_run L R mr s).2, e.isRepeatOrTile = false := by
  have h1 : ¬ num_columns L = 0 := by
    simpa [num_columns, List.length_eq_zero] using hL
  have h2 : ¬ num_columns R = 0 := by
    simpa [num_columns, List.length_eq_zero] using hR
  have hrun : cross_join_run L R mr s =
      (.ok (empty_like L ++ empty_like R),
        [.emptyLikeCall none none, .emptyLikeCall none none,
          .makeTableCall none none]) := by
    rw [cross_join_run, if_neg h1, if_neg h2, if_pos h0]
  refine ⟨empty_like L ++ empty_like R, by rw [hrun], ?_, ?_, ?_, ?_⟩
  · rw [num_rows_append (empty_like_ne_nil hL), num_rows_empty_like hL]
  · simp [num_columns, empty_like]
  · rw [dtypes_append, dtypes_empty_like, dtypes_empty_like]
  · rw [hrun]
    show ∀ e ∈ [Event.emptyLikeCall none none, Event.emptyLikeCall none none,
      Event.makeTableCall none none], Event.isRepeatOrTile e = false
    decide

/-- Witness for C4 on a zero-row left table and a 1-row right table, both
with one column. -/
theorem crossJoin_zero_rows_degenerate_witness :
    ∃ T, (cross_join_run [Column.mk 3 []] [Column.mk 4 [1]] 0 0).1 = .ok T ∧
      num_rows T = 0 ∧
      num_columns T = num_columns [Column.mk 3 []] +
        num_columns [Column.mk 4 [1]] ∧
      dtypes T = dtypes [Column.mk 3 []] ++ dtypes [Column.mk 4 [1]] ∧
      ∀ e ∈ (cross_join_run [Column.mk 3 []] [Column.mk 4 [1]] 0 0).2,
        e.isRepeatOrTile = false :=
  crossJoin_zero_rows_degenerate [Column.mk 3 []] [Column.mk 4 [1]] 0 0
    (by decide) (by decide) (by decide)

/-- C5 counterexample: in a call with caller stream 1 on two non-empty
one-column tables, the trace contains the tiling invocation, and that
invocation is not issued with the caller's stream (the call site passes no
stream argument to the public tile API at all). -/
theorem crossJoin_stream_counterexample :
    Event.tileCall (some 0) none ∈
      (cross_join_run [Column.mk 0 [1]] [Column.mk 0 [2]] 0 1).2 ∧
    Event.streamArg (Event.tileCall (some 0) none) ≠ some 1 := by
  decide

/-- C5 amended: only the row-repetition invocation is issued with the
caller's stream; the tiling invocation goes through the public tile API
with no stream argument, and the empty-like invocations and the final
table construction are issued with no stream argument either. -/
theorem crossJoin_stream_amended (L R : Table) (mr s : Nat) :
    ∀ e ∈ (cross_join_run L R mr s).2,
      e = Event.repeatCall (some mr) (some s) ∨ Event.streamArg e = none := by
  intro e he
  by_cases h1 : num_columns L = 0
  · rw [cross_join_run, if_pos h1] at he
    simp at he
  · by_cases h2 : num_columns R = 0
    · rw [cross_join_run, if_neg h1, if_pos h2] at he
      simp at he
    · by_cases h3 : num_rows L = 0 ∨ num_rows R = 0
      · rw [cross_join_run, if_neg h1, if_neg h2, if_pos h3] at he
        simp only [List.mem_cons, List.not_mem_nil, or_false] at he
        rcases he with rfl | rfl | rfl
        · exact Or.inr rfl
        · exact Or.inr rfl
        · exact Or.inr rfl
      · rw [cross_join_run, if_neg h1, if_neg h2, if_neg h3] at he
        simp only [List.mem_cons, List.not_mem_nil, or_false] at he
        rcases he with rfl | rfl | rfl
        · exact Or.inl rfl
        · exact Or.inr rfl
        · exact Or.inr rfl

/-- Witness for the amended C5: the tiling invocation in a concrete call
carries no stream argument. -/
theorem crossJoin_stream_amended_witness :
    Event.tileCall (some 0) none = Event.repeatCall (some 0) (some 1) ∨
      Event.streamArg (Event.tileCall (some 0) none) = none :=
  crossJoin_stream_amended [Column.mk 0 [1]] [Column.mk 0 [2]] 0 1
    (Event.tileCall (some 0) none) (by decide)

/-- C6 counterexample: on the zero-row path with caller memory resource 1,
the trace contains a column-producing empty-like invocation that is not
issued with the caller's resource (the call site passes no resource to
empty_like). -/
theorem crossJoin_mr_counterexample :
    Event.emptyLikeCall none none ∈
      (cross_join_run [Column.mk 0 []] [Column.mk 0 [1]] 1 0).2 ∧
    Event.producesColumns (Event.emptyLikeCall none none) = true ∧
    Event.mrArg (Event.emptyLikeCall none none) ≠ some 1 := by
  decide

/-- C6 amended: on the general path every column-producing primitive
invocation (repetition and tiling) is issued with the caller's memory
resource, but on the zero-row path the zero-row columns are produced by
empty-like invocations issued without the caller's resource. -/
theorem crossJoin_mr_amended (L R : Table) (mr s : Nat) :
    (num_rows L ≠ 0 → num_rows R ≠ 0 →
      ∀ e ∈ (cross_join_run L R mr s).2,
        e.producesColumns = true → e.mrArg = some mr) ∧
    ((num_rows L = 0 ∨ num_rows R = 0) →
      ∀ e ∈ (cross_join_run L R mr s).2,
        e.producesColumns = true → e.mrArg = none) := by
  constructor
  · intro hm hn e he hp
    by_cases h1 : num_columns L = 0
    · rw [cross_join_run, if_pos h1] at he
      simp at he
    · by_cases h2 : num_columns R = 0
      · rw [cross_join_run, if_neg h1, if_pos h2] at he
        simp at he
      · have h3 : ¬ (num_rows L = 0 ∨ num_rows R = 0) := by tauto
        rw [cross_join_run, if_neg h1, if_neg h2, if_neg h3] at he
        simp only [List.mem_cons, List.not_mem_nil, or_false] at he
        rcases he with rfl | rfl | rfl
        · rfl
        · rfl
        · exact absurd hp (by decide)
  · intro h0 e he hp
    by_cases h1 : num_columns L = 0
    · rw [cross_join_run, if_pos h1] at he
      simp at he
    · by_cases h2 : num_columns R = 0
      · rw [cross_join_run, if_neg h1, if_pos h2] at he
        simp at he
      · rw [cross_join_run, if_neg h1, if_neg h2, if_pos h0] at he
        simp only [List.mem_cons, List.not_mem_nil, or_false] at he
        rcases he with rfl | rfl | rfl
        · rfl
        · rfl
        · exact absurd hp (by decide)

/-- Witness for the amended C6: in a concrete general-path call with
resource 7, the tiling invocation carries the caller's resource. -/
theorem crossJoin_mr_amended_witness :
    Event.mrArg (Event.tileCall (some 7) none) = some 7 :=
  (crossJoin_mr_amended [Column.mk 0 [1]] [Column.mk 0 [2]] 7 3).1
    (by decide) (by decide) (Event.tileCall (some 7) none) (by decide)
    (by decide)

/-- C7: crossing any table L of m rows with a one-row right table yields a
table of exactly m rows whose row i is row i of L unchanged, concatenated
with the right table's single row. -/
theorem crossJoin_single_row_identity (L R : Table) (m : Nat)
    (hL : L ≠ []) (hR : R ≠ []) (hwL : WF L m) (hwR : WF R 1) :
    ∃ T, cross_join L R = .ok T ∧ num_rows T = m ∧
      ∀ i, i < m → row T i = row L i ++ row R 0 := by
  rcases Nat.eq_zero_or_pos m with hm | hm
  · subst hm
    have h0 : num_rows L = 0 ∨ num_rows R = 0 :=
      Or.inl (num_rows_eq hL hwL)
    refine ⟨empty_like L ++ empty_like R, cross_join_zero hL hR h0, ?_, ?_⟩
    · rw [num_rows_append (empty_like_ne_nil hL), num_rows_empty_like hL]
    · intro i hi
      exact absurd hi (Nat.not_lt_zero i)
  · refine ⟨repeatTable L 1 ++ tile R m,
      cross_join_general hL hR hwL hwR hm (by omega), ?_, ?_⟩
    · rw [num_rows_append (repeatTable_ne_nil hL 1),
        num_rows_repeatTable hL hwL 1, Nat.mul_one]
    · intro i hi
      have hi' : i < m * 1 := by omega
      have h := cross_join_row_law hwL hwR hi'
      rwa [Nat.div_one, Nat.mod_one] at h

/-- Witness for C7 on a 2-row left table and a single-row right table. -/
theorem crossJoin_single_row_identity_witness :
    ∃ T, cross_join [Column.mk 0 [5, 6]] [Column.mk 0 [9]] = .ok T ∧
      num_rows T = 2 ∧
      ∀ i, i < 2 →
        row T i = row [Column.mk 0 [5, 6]] i ++ row [Column.mk 0 [9]] 0 :=
  crossJoin_single_row_identity [Column.mk 0 [5, 6]] [Column.mk 0 [9]] 2
    (by decide) (by decide) (by decide) (by decide)

/-- C8: the two nestings of cross_join over tables A, B, C (each with at
least one column) both produce rows(A)*rows(B)*rows(C) rows and
cols(A)+cols(B)+cols(C) columns. -/
theorem crossJoin_shape_assoc (A B C : Table) (a b c : Nat)
    (hA : A ≠ []) (hB : B ≠ []) (hC : C ≠ [])
    (hwA : WF A a) (hwB : WF B b) (hwC : WF C c) :
    ∃ T1 U1 T2 U2,
      cross_join A B = .ok T1 ∧ cross_join T1 C = .ok U1 ∧
      cross_join B C = .ok T2 ∧ cross_join A T2 = .ok U2 ∧
      num_rows U1 = a * b * c ∧
      num_columns U1 = num_columns A + num_columns B + num_columns C ∧
      num_rows U2 = a * b * c ∧
      num_columns U2 = num_columns A + num_columns B + num_columns C := by
  obtain ⟨T1, e1, c1, _, w1, _, ne1⟩ := cross_join_shape hA hB hwA hwB
  obtain ⟨U1, e2, c2, _, _, r2, _⟩ := cross_join_shape ne1 hC w1 hwC
  obtain ⟨T2, e3, c3, _, w3, _, ne3⟩ := cross_join_shape hB hC hwB hwC
  obtain ⟨U2, e4, c4, _, _, r4, _⟩ := cross_join_shape hA ne3 hwA w3
  refine ⟨T1, U1, T2, U2, e1, e2, e3, e4, r2, ?_, ?_, ?_⟩
  · rw [c2, c1]
  · rw [r4, Nat.mul_assoc]
  · rw [c4, c3, Nat.add_assoc]

/-- Witness for C8 on three one-column tables with 2, 3 and 1 rows. -/
theorem crossJoin_shape_assoc_witness :
    ∃ T1 U1 T2 U2,
      cross_join [Column.mk 0 [1, 2]] [Column.mk 0 [3, 4, 5]] = .ok T1 ∧
      cross_join T1 [Column.mk 0 [6]] = .ok U1 ∧
      cross_join [Column.mk 0 [3, 4, 5]] [Column.mk 0 [6]] = .ok T2 ∧
      cross_join [Column.mk 0 [1, 2]] T2 = .ok U2 ∧
      num_rows U1 = 2 * 3 * 1 ∧
      num_columns U1 = num_columns [Column.mk 0 [1, 2]] +
        num_columns [Column.mk 0 [3, 4, 5]] + num_columns [Column.mk 0 [6]] ∧
      num_rows U2 = 2 * 3 * 1 ∧
      num_columns U2 = num_columns [Column.mk 0 [1, 2]] +
        num_columns [Column.mk 0 [3, 4, 5]] + num_columns [Column.mk 0 [6]] :=
  crossJoin_shape_assoc [Column.mk 0 [1, 2]] [Column.mk 0 [3, 4, 5]]
    [Column.mk 0 [6]] 2 3 1 (by decide) (by decide) (by decide) (by decide)
    (by decide) (by decide)

/-- A repetition oracle that always fails, used to witness error
propagation. -/
def repFail : Table → Nat → Except String Table :=
  fun _ _ => .error "boom"

/-- A tiling oracle that always succeeds with the modelled tile. -/
def tlOk : Table → Nat → Except String Table :=
  fun t m => .ok (tile t m)

/-- C9: atomicity of cross_join over fallible primitives: every error the
call returns is one of its own two validation errors or a primitive's
error propagated unchanged (no retry), and every success is a complete
stitched table, either the empty-path table or the concatenation of the
two primitives' successful outputs (no partial result). -/
theorem crossJoin_atomicity (rep tl : Table → Nat → Except String Table)
    (L R : Table) :
    (∀ e, cross_join_exc rep tl L R = .error e →
      e = "Left table is empty" ∨ e = "Right table is empty" ∨
      rep L (num_rows R) = .error e ∨ tl R (num_rows L) = .error e) ∧
    (∀ T, cross_join_exc rep tl L R = .ok T →
      T = empty_like L ++ empty_like R ∨
      ∃ lr rt, rep L (num_rows R) = .ok lr ∧ tl R (num_rows L) = .ok rt ∧
        T = lr ++ rt) := by
  constructor
  · intro e he
    rw [cross_join_exc] at he
    split at he
    · injection he with h
      exact Or.inl h.symm
    · split at he
      · injection he with h
        exact Or.inr (Or.inl h.symm)
      · split at he
        · exact Except.noConfusion he
        · split at he
          next e1 heq =>
            injection he with h
            subst h
            exact Or.inr (Or.inr (Or.inl heq))
          next lr heq =>
            split at he
            next e1 heq2 =>
              injection he with h
              subst h
              exact Or.inr (Or.inr (Or.inr heq2))
            next rt heq2 =>
              exact Except.noConfusion he
  · intro T hT
    rw [cross_join_exc] at hT
    split at hT
    · exact Except.noConfusion hT
    · split at hT
      · exact Except.noConfusion hT
      · split at hT
        · injection hT with h
          exact Or.inl h.symm
        · split at hT
          next e1 heq => exact Except.noConfusion hT
          next lr heq =>
            split at hT
            next e1 heq2 => exact Except.noConfusion hT
            next rt heq2 =>
              injection hT with h
              exact Or.inr ⟨lr, rt, heq, heq2, h.symm⟩

/-- Witness for C9: with a failing repetition oracle, a general-path call
surfaces exactly the oracle's error. -/
theorem crossJoin_atomicity_witness :
    "boom" = "Left table is empty" ∨ "boom" = "Right table is empty" ∨
      repFail [Column.mk 0 [1]] (num_rows [Column.mk 0 [2]]) =
        .error "boom" ∨
      tlOk [Column.mk 0 [2]] (num_rows [Column.mk 0 [1]]) = .error "boom" :=
  (crossJoin_atomicity repFail tlOk [Column.mk 0 [1]] [Column.mk 0 [2]]).1
    "boom" (by decide)

/-- C10: frame property: a successful cross_join call leaves every
pre-existing heap entry, in particular both input tables, exactly as
before; the result is built entirely from freshly produced columns
appended after them. -/
theorem crossJoin_frame (mem : List Table) (i j : Nat) (mem2 : List Table)
    (h : cross_join_heap mem i j = .ok mem2) :
    (∀ k, k < mem.length → mem2[k]? = mem[k]?) ∧
      mem2[i]? = mem[i]? ∧ mem2[j]? = mem[j]? := by
  rcases hi : mem[i]? with _ | L
  · simp only [cross_join_heap, hi] at h
    exact Except.noConfusion h
  rcases hj : mem[j]? with _ | R
  · simp only [cross_join_heap, hi, hj] at h
    exact Except.noConfusion h
  simp only [cross_join_heap, hi, hj] at h
  rcases hcj : cross_join L R with e | T
  · simp only [hcj] at h
    exact Except.noConfusion h
  simp only [hcj] at h
  injection h with h2
  subst h2
  have hpres : ∀ k, k < mem.length → (mem ++ [T])[k]? = mem[k]? :=
    fun k hk => List.getElem?_append_left hk
  obtain ⟨hilt, _⟩ := List.getElem?_eq_some_iff.mp hi
  obtain ⟨hjlt, _⟩ := List.getElem?_eq_some_iff.mp hj
  exact ⟨hpres, (hpres i hilt).trans hi, (hpres j hjlt).trans hj⟩

/-- Witness for C10 on a two-table heap: the call appends the product and
both inputs read back unchanged. -/
theorem crossJoin_frame_witness :
    ([[Column.mk 0 [1]], [Column.mk 0 [2]],
      [Column.mk 0 [1], Column.mk 0 [2]]] : List Table)[0]? =
      ([[Column.mk 0 [1]], [Column.mk 0 [2]]] : List Table)[0]? ∧
    ([[Column.mk 0 [1]], [Column.mk 0 [2]],
      [Column.mk 0 [1], Column.mk 0 [2]]] : List Table)[1]? =
      ([[Column.mk 0 [1]], [Column.mk 0 [2]]] : List Table)[1]? :=
  (crossJoin_frame [[Column.mk 0 [1]], [Column.mk 0 [2]]] 0 1
    [[Column.mk 0 [1]], [Column.mk 0 [2]], [Column.mk 0 [1], Column.mk 0 [2]]]
    (by decide)).2

end CrossJoin
